import Mathlib

/-!
# EKS Chaos Guardian — verification of the Remediation Orchestration Engine

Shallow embedding of the orchestration core of the repository:

* `src/lambda/bedrock-agent/main.py` — autonomy gate (`can_auto_execute`),
  plan execution (`execute_plan`, `execute_step`, `queue_for_approval`),
  recovery verification (`verify_recovery`, `perform_verification_check`);
* `src/lambda/runbook/runbook_manager.py` — runbook execution
  (`execute_runbook`, `execute_runbook_step`), similarity search
  (`extract_runbook_features`, `calculate_similarity`, `get_similar_runbooks`);
* `src/lambda/slack/slack_bot.py` — approval resolution (`get_approval_request`,
  `update_approval_request`, `handle_approval`, `handle_approve_command`).

External collaborators (the k8s-operations Lambda, DynamoDB, S3, Slack, the
wall clock) are passed in explicitly: invocation outcomes become oracle
functions, the approval table becomes an association list, timestamps become
plain string parameters.  Python dictionaries that the code reads with
`.get(key, default)` become `Option`-valued fields.  Floats are represented by
their exact rational values; where rounding decides a comparison (the
similarity threshold) the arithmetic is modelled bit-exactly as IEEE-754
binary64 (`roundb64`, `fadd`, `fdiv`), and where it does not (the
weighted-agreement formula, the zero-total guard) the real-arithmetic reading
over `ℚ` is used.
-/

namespace ChaosGuardian

/-! ## Autonomy gate — `main.py` lines 238–253 -/

/-- `low_risk_actions` from `EKSChaosGuardian.can_auto_execute` (main.py line 246). -/
def low_risk_actions : List String := ["rollout_restart", "coredns_restart", "cache_refresh"]

/-- `EKSChaosGuardian.can_auto_execute` (main.py lines 238–253): decides whether a
step may run without human sign-off, from the action name, its risk level and the
global autonomy mode. -/
def can_auto_execute (action risk_level autonomy_mode : String) : Bool :=
  if autonomy_mode = "dry_run" then
    false
  else if autonomy_mode = "auto" then
    decide (action ∈ low_risk_actions) && decide (risk_level = "low")
  else if autonomy_mode = "approve" then
    decide (risk_level = "low")
  else
    false

/-! ## Execution controller — `main.py` lines 255–326 and 463–475

A plan step as `execute_plan` consumes it: its number, action name and the
stored `can_auto_execute` annotation (the other fields — target, params, risk —
are only forwarded to the external executor Lambda and do not influence the
control flow modelled here). -/

structure Step where
  step_number : Nat
  action : String
  auto : Bool
  deriving DecidableEq, Repr

/-- Per-step `ExecutionResult` as built by `execute_step` / `queue_for_approval`:
status plus the `reason` field that only the unknown-action branch sets. -/
structure StepResult where
  step_number : Nat
  action : String
  status : String
  reason : Option String := none
  deriving DecidableEq, Repr

/-- The action names `execute_step` dispatches on (main.py lines 300–309). -/
def known_actions : List String :=
  ["patch_deployment", "rollout_restart", "scale_deployment", "cordon_node", "drain_node"]

/-- `EKSChaosGuardian.execute_step` (main.py lines 294–326).  For a known action
the k8s-operations Lambda is invoked; the oracle `env` tells whether that
invocation was observed as a success (`statusCode == 200`; a raised exception or
a non-200 response both surface as `failed`).  An unknown action is reported as
`skipped` with no invocation at all. -/
def execute_step (env : Step → Bool) (step : Step) : StepResult :=
  if step.action ∈ known_actions then
    { step_number := step.step_number, action := step.action,
      status := if env step then "success" else "failed" }
  else
    { step_number := step.step_number, action := step.action, status := "skipped",
      reason := some ("Unknown action: " ++ step.action) }

/-- `EKSChaosGuardian.queue_for_approval` (main.py lines 463–475): the Slack
notification is fire-and-forget; the recorded result is always `queued_for_approval`. -/
def queue_for_approval (step : Step) : StepResult :=
  { step_number := step.step_number, action := step.action, status := "queued_for_approval" }

/-- The loop of `EKSChaosGuardian.execute_plan` (main.py lines 270–284) together
with the run-level status: an auto-executable step runs through `execute_step`
and a non-`success` result breaks the loop with status `partial_failure`; a
non-auto step is queued for approval and the loop continues.  Returns the
`steps_executed` list and the final `status` field. -/
def execute_plan (env : Step → Bool) : List Step → List StepResult × String
  | [] => ([], "success")
  | step :: rest =>
    if step.auto then
      let r := execute_step env step
      if r.status ≠ "success" then
        ([r], "partial_failure")
      else
        let tail := execute_plan env rest
        (r :: tail.1, tail.2)
    else
      let r := queue_for_approval step
      let tail := execute_plan env rest
      (r :: tail.1, tail.2)

/-- The outcome `execute_plan` records for one step, depending on its stored
`can_auto_execute` annotation. -/
def plan_step_outcome (env : Step → Bool) (step : Step) : StepResult :=
  if step.auto then execute_step env step else queue_for_approval step

end ChaosGuardian

namespace ChaosGuardian

/-! ## Runbook execution — `runbook_manager.py` lines 316–433 -/

/-- A runbook step as `execute_runbook_step` consumes it: only its `type` drives
the control flow (the config is forwarded to the external Lambda). -/
structure RbStep where
  type : String
  deriving DecidableEq, Repr

structure RbStepResult where
  step_type : String
  status : String
  deriving DecidableEq, Repr

/-- `execute_runbook_step` (runbook_manager.py lines 363–433).  A
`lambda_invoke` step completes iff the invoked Lambda is observed returning
`statusCode == 200` (oracle `env`; a raised exception yields `failed` too);
`k8s_operation` and `wait` steps always complete; an unknown step type is
`failed` with an unknown-step-type error. -/
def execute_runbook_step (env : RbStep → Bool) (s : RbStep) : RbStepResult :=
  if s.type = "lambda_invoke" then
    { step_type := s.type, status := if env s then "completed" else "failed" }
  else if s.type = "k8s_operation" then
    { step_type := s.type, status := "completed" }
  else if s.type = "wait" then
    { step_type := s.type, status := "completed" }
  else
    { step_type := s.type, status := "failed" }

/-- The loop of `execute_runbook` (runbook_manager.py lines 335–342) over the
retrieved runbook's step list (retrieval itself is external storage): each step
result is appended; a `failed` result sets the run status to `failed` and breaks
the loop. -/
def execute_runbook_loop (env : RbStep → Bool) : List RbStep → List RbStepResult × String
  | [] => ([], "running")
  | s :: rest =>
    let r := execute_runbook_step env s
    if r.status = "failed" then
      ([r], "failed")
    else
      let tail := execute_runbook_loop env rest
      (r :: tail.1, tail.2)

/-- `execute_runbook` (runbook_manager.py lines 316–352) restricted to its step
loop and status bookkeeping: after the loop, a status still `running` is
promoted to `completed` (lines 344–346).  Returns the `steps` list and the final
`status` field. -/
def execute_runbook (env : RbStep → Bool) (steps : List RbStep) :
    List RbStepResult × String :=
  let out := execute_runbook_loop env steps
  (out.1, if out.2 = "running" then "completed" else out.2)

/-! ## Similarity matcher — `runbook_manager.py` lines 285–314 and 550–587 -/

/-- The six weighted feature keys that `calculate_similarity` iterates over
(runbook_manager.py lines 572–579).  Other dictionary keys (`tags`, titles,
counters, …) are never read by the similarity loop and are not modelled. -/
inductive FeatureKey
  | failure_type
  | cluster
  | namespace_key
  | resource_type
  | severity
  | actions
  deriving DecidableEq, Repr

/-- A feature value: a plain string, or the list of action-type strings that
`extract_runbook_features` builds for the `actions` key. -/
inductive FeatureValue
  | str (s : String)
  | strs (l : List String)
  deriving DecidableEq, Repr

/-- What `calculate_similarity` sees of a Python dictionary: for each weighted
key, whether the key is present (`feature in d`) and, if so, its value. -/
def FeatureDict : Type := FeatureKey → Option FeatureValue

/-- The fixed feature weights (runbook_manager.py lines 572–579), as exact
rationals in source order. -/
def weights : List (FeatureKey × ℚ) :=
  [(.failure_type, 3/10), (.cluster, 1/10), (.namespace_key, 1/10),
   (.resource_type, 2/10), (.severity, 1/10), (.actions, 2/10)]

/-- `calculate_similarity` (runbook_manager.py lines 565–587), real-arithmetic
reading: for each weighted feature present in both dictionaries, add its weight
to the running total and, when the two values agree exactly, also to the score;
finally divide, guarding against an empty total.  This exact-ℚ version carries
the weighted-agreement formula and the zero-total guard; the bit-accurate
IEEE-754 semantics of the same Python code, needed where rounding decides a
comparison, is `calculate_similarity_f64` below. -/
def calculate_similarity (features1 runbook2 : FeatureDict) : ℚ :=
  let acc := weights.foldl
    (fun (acc : ℚ × ℚ) fw =>
      match features1 fw.1, runbook2 fw.1 with
      | some v1, some v2 =>
        (if v1 = v2 then acc.1 + fw.2 else acc.1, acc.2 + fw.2)
      | _, _ => acc)
    (0, 0)
  if acc.2 > 0 then acc.1 / acc.2 else 0

/-- Spec-side reading of the numerator: the sum of the weights of the features
present in both sides whose values match exactly. -/
def matched_weight (f1 f2 : FeatureDict) : ℚ :=
  ((weights.filter (fun fw =>
      (f1 fw.1).isSome && (f2 fw.1).isSome && decide (f1 fw.1 = f2 fw.1))).map Prod.snd).sum

/-- Spec-side reading of the denominator: the sum of the weights of the
features present in both sides (features missing from either side are
excluded). -/
def present_weight (f1 f2 : FeatureDict) : ℚ :=
  ((weights.filter (fun fw =>
      (f1 fw.1).isSome && (f2 fw.1).isSome)).map Prod.snd).sum

/-- An entry of `runbook_data['actions']` as `extract_runbook_features` reads
it: only `action.get('type', '')` is used. -/
structure ActionItem where
  type : Option String
  deriving DecidableEq, Repr

/-- `runbook_data` as `extract_runbook_features` reads it, every field accessed
with `.get(key, default)`. -/
structure RunbookData where
  failure_type : Option String := none
  cluster : Option String := none
  namespace_field : Option String := none
  resource_type : Option String := none
  severity : Option String := none
  actions : Option (List ActionItem) := none

/-- `extract_runbook_features` (runbook_manager.py lines 550–563): builds a
feature dictionary in which every weighted key is present, with defaults `""`
(severity defaults to `"medium"`, actions to the empty list).  The `tags` entry
it also builds is never read by `calculate_similarity` and is omitted. -/
def extract_runbook_features (rd : RunbookData) : FeatureDict :=
  fun k =>
    match k with
    | .failure_type => some (.str (rd.failure_type.getD ""))
    | .cluster => some (.str (rd.cluster.getD ""))
    | .namespace_key => some (.str (rd.namespace_field.getD ""))
    | .resource_type => some (.str (rd.resource_type.getD ""))
    | .severity => some (.str (rd.severity.getD "medium"))
    | .actions => some (.strs ((rd.actions.getD []).map (fun a => a.type.getD "")))

/-- Candidates scored higher come first; on ties the catalog order is kept —
the observable behaviour of Python's stable `sort(key=..., reverse=True)`
(runbook_manager.py line 308). -/
def score_ge (u v : FeatureDict × ℚ) : Prop := v.2 ≤ u.2

instance : DecidableRel score_ge :=
  fun u v => inferInstanceAs (Decidable (v.2 ≤ u.2))

instance : IsTotal (FeatureDict × ℚ) score_ge :=
  ⟨fun u v => le_total v.2 u.2⟩

instance : IsTrans (FeatureDict × ℚ) score_ge :=
  ⟨fun _ _ _ h1 h2 => le_trans h2 h1⟩

/-- A `runbook_data` record used as the similarity query in the concrete
instances below. -/
def threshold_query : RunbookData :=
  { failure_type := some "oom_killed", cluster := some "c1",
    namespace_field := some "ns", resource_type := some "deployment",
    severity := some "high", actions := none }

/-- A catalog item agreeing with `threshold_query` on `failure_type`,
`namespace`, `resource_type` and `severity` and differing on `cluster` and
`actions`, all six features present on both sides: its exact weighted ratio is
7/10, but the float accumulation (0.3, then skipping cluster, +0.1, +0.2, +0.1)
rounds to 0.7000000000000001, strictly above the threshold. -/
def threshold_item : FeatureDict :=
  fun k =>
    match k with
    | .failure_type => some (.str "oom_killed")
    | .cluster => some (.str "c2")
    | .namespace_key => some (.str "ns")
    | .resource_type => some (.str "deployment")
    | .severity => some (.str "high")
    | .actions => some (.strs ["rollout_restart"])

/-- A catalog item identical to `threshold_query`'s extracted features: its
similarity score is 1. -/
def identical_item : FeatureDict := extract_runbook_features threshold_query

/-- A feature dictionary whose only present keys are `failure_type` and
`cluster`: an input sharing exactly two of the six weighted features with
itself. -/
def two_feature_dict : FeatureDict :=
  fun k =>
    match k with
    | .failure_type => some (.str "oom_killed")
    | .cluster => some (.str "c1")
    | _ => none

/-! ## IEEE-754 binary64 arithmetic

The similarity code runs on Python floats.  Where rounding decides a
comparison (the `> 0.7` threshold), the arithmetic is modelled bit-exactly:
every finite binary64 value is represented by its exact rational value, and
each operation rounds its exact rational result back to 53 significant bits
with round-to-nearest, ties-to-even.  The exponent range is unbounded — the
similarity arithmetic stays far from overflow and subnormals. -/

/-- Round a rational to the nearest integer, ties to the even integer
(the floor-based formulation is correct for negative inputs too). -/
def rhe (x : ℚ) : ℤ :=
  if x - ⌊x⌋ < 1/2 then ⌊x⌋
  else if 1/2 < x - ⌊x⌋ then ⌊x⌋ + 1
  else if 2 ∣ ⌊x⌋ then ⌊x⌋ else ⌊x⌋ + 1

/-- Round a rational to the nearest binary64 value (53 significant bits,
round-to-nearest, ties-to-even), returned as its exact rational value. -/
def roundb64 (q : ℚ) : ℚ :=
  if q = 0 then 0
  else (rhe (q * 2^((52:ℤ) - Int.log 2 |q|)) : ℚ) * (2:ℚ)^(Int.log 2 |q| - 52)

/-- binary64 addition: exact sum, then one rounding. -/
def fadd (x y : ℚ) : ℚ := roundb64 (x + y)

/-- binary64 division: exact quotient, then one rounding. -/
def fdiv (x y : ℚ) : ℚ := roundb64 (x / y)

/-- The binary64 value of the literal `0.1`. -/
def d01 : ℚ := 3602879701896397/2^55

/-- The binary64 value of the literal `0.2`. -/
def d02 : ℚ := 3602879701896397/2^54

/-- The binary64 value of the literal `0.3`. -/
def d03 : ℚ := 5404319552844595/2^54

/-- The binary64 value of `0.3 + 0.1` (prints as `0.4`). -/
def d04 : ℚ := 3602879701896397/2^53

/-- The binary64 value of `0.4 + 0.2` (prints as `0.6000000000000001`). -/
def d06 : ℚ := 5404319552844596/2^53

/-- The binary64 value of the literal `0.7` (also of `0.5 + 0.2`). -/
def d07 : ℚ := 3152519739159347/2^52

/-- The binary64 value of `0.6000000000000001 + 0.1`
(prints as `0.7000000000000001`). -/
def d07p : ℚ := 6305039478318695/2^53

/-- The binary64 value of `0.7 + 0.1` (prints as `0.7999999999999999`). -/
def d08 : ℚ := 7205759403792793/2^53

/-- The weight dictionary of `calculate_similarity` as the program holds it:
the binary64 values of the decimal literals at runbook_manager.py lines
572–579, in source order. -/
def weights_f64 : List (FeatureKey × ℚ) :=
  [(.failure_type, d03), (.cluster, d01), (.namespace_key, d01),
   (.resource_type, d02), (.severity, d01), (.actions, d02)]

/-- One iteration of the `calculate_similarity` loop (runbook_manager.py lines
581–585) on the float accumulators. -/
def sim_step_f64 (features1 runbook2 : FeatureDict) (acc : ℚ × ℚ)
    (fw : FeatureKey × ℚ) : ℚ × ℚ :=
  match features1 fw.1, runbook2 fw.1 with
  | some v1, some v2 =>
    (if v1 = v2 then fadd acc.1 fw.2 else acc.1, fadd acc.2 fw.2)
  | _, _ => acc

/-- `calculate_similarity` (runbook_manager.py lines 565–587) with bit-exact
IEEE-754 binary64 accumulation and division — the semantics the Python
interpreter actually executes. -/
def calculate_similarity_f64 (features1 runbook2 : FeatureDict) : ℚ :=
  let acc := weights_f64.foldl (sim_step_f64 features1 runbook2) (0, 0)
  if acc.2 > 0 then fdiv acc.1 acc.2 else 0

/-- A catalog item agreeing with `threshold_query` on `failure_type`,
`cluster`, `namespace` and `resource_type` and differing on `severity` and
`actions`, all six features present on both sides: its float score is exactly
the binary64 value of `0.7` (and its exact weighted ratio is exactly 7/10). -/
def threshold_item_f64 : FeatureDict :=
  fun k =>
    match k with
    | .failure_type => some (.str "oom_killed")
    | .cluster => some (.str "c1")
    | .namespace_key => some (.str "ns")
    | .resource_type => some (.str "deployment")
    | .severity => some (.str "low")
    | .actions => some (.strs ["rollout_restart"])

/-- The filtering pass of `get_similar_runbooks` (runbook_manager.py lines
299–305): score every catalog entry against the extracted features with the
program's float arithmetic and keep those scoring strictly above the binary64
value of the literal `0.7`.  The Python code stores the score on the returned
item (`runbook['similarity_score']`), modelled here as returning the pair
(item, score). -/
def similar_hits (rd : RunbookData) (catalog : List FeatureDict) :
    List (FeatureDict × ℚ) :=
  catalog.filterMap (fun rb =>
    let s := calculate_similarity_f64 (extract_runbook_features rd) rb
    if s > d07 then some (rb, s) else none)

/-- `get_similar_runbooks` (runbook_manager.py lines 285–314): filter by the
strict threshold, sort by score descending (stable), return the top 10. -/
def get_similar_runbooks (rd : RunbookData) (catalog : List FeatureDict) :
    List (FeatureDict × ℚ) :=
  (List.insertionSort score_ge (similar_hits rd catalog)).take 10

/-! ## Approval resolution — `slack_bot.py` lines 764–787, 808–828 and 889–928 -/

/-- An item of the `eks-chaos-guardian-approvals` table as the resolution code
reads and writes it: `status`, the `action` echoed in responses, and the
`approved_by` / `approved_at` attributes set by `update_approval_request`. -/
structure ApprovalRecord where
  status : String
  action : String
  approved_by : Option String := none
  approved_at : Option String := none
  deriving DecidableEq, Repr

/-- The approvals table, keyed by `approval_id`. -/
def ApprovalStore : Type := List (String × ApprovalRecord)

/-- `get_approval_request` (slack_bot.py lines 901–910): keyed `get_item`
lookup, `none` when the id is unknown. -/
def get_approval_request : ApprovalStore → String → Option ApprovalRecord
  | [], _ => none
  | p :: rest, approval_id =>
    if p.1 = approval_id then some p.2 else get_approval_request rest approval_id

/-- The field update `update_approval_request` performs on a record. -/
def resolve_record (req : ApprovalRecord) (status user_id now : String) : ApprovalRecord :=
  { req with status := status, approved_by := some user_id, approved_at := some now }

/-- `update_approval_request` (slack_bot.py lines 912–928): sets `status`,
`approved_by` and `approved_at` on the record at `approval_id`; `now` stands
for `datetime.utcnow().isoformat()`.  (DynamoDB `update_item` would upsert a
missing key, but every caller resolves only ids it has just looked up.) -/
def update_approval_request (store : ApprovalStore) (approval_id status user_id now : String) :
    ApprovalStore :=
  store.map (fun p =>
    if p.1 = approval_id then (p.1, resolve_record p.2 status user_id now) else p)

/-- The operator-visible outcome of a resolution attempt (the Slack message of
`create_response`, reduced to its case). -/
inductive SlackResponse
  | usage
  | notFound (approval_id : String)
  | alreadyResolved (approval_id status : String)
  | approvedAndExecuted (action : String)
  | rejected (action : String)
  deriving DecidableEq, Repr

/-- `handle_approval` (slack_bot.py lines 808–828): unknown id → not-found;
status other than `pending` → already-resolved, nothing written; otherwise the
record is updated to the decision and, on `approved`, the action is fired
(external, fire-and-forget). -/
def handle_approval (store : ApprovalStore) (approval_id user_id status now : String) :
    SlackResponse × ApprovalStore :=
  match get_approval_request store approval_id with
  | none => (.notFound approval_id, store)
  | some req =>
    if req.status ≠ "pending" then
      (.alreadyResolved approval_id req.status, store)
    else
      let store' := update_approval_request store approval_id status user_id now
      if status = "approved" then
        (.approvedAndExecuted req.action, store')
      else
        (.rejected req.action, store')

/-- `handle_approve_command` (slack_bot.py lines 764–787): the `/approve`
slash command — empty text → usage message; otherwise resolve the id with
decision `approved` exactly as `handle_approval` does. -/
def handle_approve_command (store : ApprovalStore) (text user_id now : String) :
    SlackResponse × ApprovalStore :=
  if text = "" then
    (.usage, store)
  else
    match get_approval_request store text with
    | none => (.notFound text, store)
    | some req =>
      if req.status ≠ "pending" then
        (.alreadyResolved text req.status, store)
      else
        (.approvedAndExecuted req.action,
         update_approval_request store text "approved" user_id now)

/-! ## Verifier — `main.py` lines 496–578 -/

/-- A per-check result: `status` plus the `details` string of the three
implemented checks or the `reason` of the unknown-check branch. -/
structure CheckResult where
  check : String
  status : String
  details : Option String := none
  reason : Option String := none
  deriving DecidableEq, Repr

/-- `perform_verification_check` (main.py lines 529–545) with the three
implemented checks (lines 547–578; their cluster/namespace arguments do not
influence the outcome): `pod_status`, `no_errors` and `metrics_normal` report
`passed`; an unknown check name is reported `skipped` with a reason. -/
def perform_verification_check (check : String) : CheckResult :=
  if check = "pod_status" then
    { check := check, status := "passed", details := some "All pods running and ready" }
  else if check = "no_errors" then
    { check := check, status := "passed", details := some "No error conditions detected" }
  else if check = "metrics_normal" then
    { check := check, status := "passed", details := some "Metrics within normal ranges" }
  else
    { check := check, status := "skipped", reason := some ("Unknown check: " ++ check) }

/-- The loop of `verify_recovery` (main.py lines 512–519): append each check's
result and downgrade the overall status to `failed` on any non-`passed` result.
Every branch of `perform_verification_check` is a total constructor — no
configured check name can raise — so the `except` handler wrapping the loop
(lines 522–525) is unreachable and the loop never aborts. -/
def verify_recovery_loop : List String → List CheckResult → String → List CheckResult × String
  | [], acc, overall => (acc, overall)
  | c :: cs, acc, overall =>
    verify_recovery_loop cs (acc ++ [perform_verification_check c])
      (if (perform_verification_check c).status ≠ "passed" then "failed" else overall)

/-- `verify_recovery` (main.py lines 496–527) restricted to its check loop and
aggregation: results start empty and the overall status starts `success`. -/
def verify_recovery (checks : List String) : List CheckResult × String :=
  verify_recovery_loop checks [] "success"

end ChaosGuardian

namespace ChaosGuardian

/-! ## Execution-order and halting lemmas -/

/-- Characterization of the `execute_plan` loop: the recorded results are the
per-step outcomes of an initial segment of the declared steps, in order, and a
`failed` result is always the last one recorded, with run status
`partial_failure`. -/
theorem execute_plan_characterization (env : Step → Bool) (steps : List Step) :
    (execute_plan env steps).1 =
      (steps.take (execute_plan env steps).1.length).map (plan_step_outcome env)
    ∧ ∀ i, ∀ h : i < (execute_plan env steps).1.length,
        ((execute_plan env steps).1[i]).status = "failed" →
          i + 1 = (execute_plan env steps).1.length
          ∧ (execute_plan env steps).2 = "partial_failure" := by
  induction steps with
  | nil =>
    exact ⟨rfl, by intro i h; simp [execute_plan] at h⟩
  | cons step rest ih =>
    by_cases ha : step.auto
    · by_cases hs : (execute_step env step).status = "success"
      · have hplan : execute_plan env (step :: rest) =
            (execute_step env step :: (execute_plan env rest).1,
             (execute_plan env rest).2) := by
          simp [execute_plan, ha, hs]
        rw [hplan]
        refine ⟨?_, ?_⟩
        · simp only [List.length_cons, List.take_succ_cons, List.map_cons]
          exact congrArg₂ List.cons (by simp [plan_step_outcome, ha]) ih.1
        · intro i h hf
          match i with
          | 0 =>
            exact absurd (hs.symm.trans hf) (by decide)
          | j + 1 =>
            obtain ⟨hj1, hj2⟩ := ih.2 j (by simpa using h) (by simpa using hf)
            refine ⟨?_, hj2⟩
            simp only [List.length_cons]
            omega
      · have hplan : execute_plan env (step :: rest) =
            ([execute_step env step], "partial_failure") := by
          simp [execute_plan, ha, hs]
        rw [hplan]
        refine ⟨by simp [plan_step_outcome, ha], ?_⟩
        intro i h _
        have hi : i = 0 := by
          simp only [List.length_singleton] at h
          omega
        subst hi
        exact ⟨rfl, rfl⟩
    · have hplan : execute_plan env (step :: rest) =
          (queue_for_approval step :: (execute_plan env rest).1,
           (execute_plan env rest).2) := by
        simp [execute_plan, ha]
      rw [hplan]
      refine ⟨?_, ?_⟩
      · simp only [List.length_cons, List.take_succ_cons, List.map_cons]
        exact congrArg₂ List.cons (by simp [plan_step_outcome, ha]) ih.1
      · intro i h hf
        match i with
        | 0 =>
          exact absurd hf (by simp [queue_for_approval])
        | j + 1 =>
          obtain ⟨hj1, hj2⟩ := ih.2 j (by simpa using h) (by simpa using hf)
          refine ⟨?_, hj2⟩
          simp only [List.length_cons]
          omega

/-- Characterization of the `execute_runbook` loop: results are the per-step
outcomes of an initial segment of the runbook's steps, in order, and a `failed`
result is always the last one, with loop status `failed`. -/
theorem execute_runbook_loop_characterization (env : RbStep → Bool) (steps : List RbStep) :
    (execute_runbook_loop env steps).1 =
      (steps.take (execute_runbook_loop env steps).1.length).map (execute_runbook_step env)
    ∧ ∀ i, ∀ h : i < (execute_runbook_loop env steps).1.length,
        ((execute_runbook_loop env steps).1[i]).status = "failed" →
          i + 1 = (execute_runbook_loop env steps).1.length
          ∧ (execute_runbook_loop env steps).2 = "failed" := by
  induction steps with
  | nil =>
    exact ⟨rfl, by intro i h; simp [execute_runbook_loop] at h⟩
  | cons s rest ih =>
    by_cases hf : (execute_runbook_step env s).status = "failed"
    · have hrun : execute_runbook_loop env (s :: rest) =
          ([execute_runbook_step env s], "failed") := by
        simp [execute_runbook_loop, hf]
      rw [hrun]
      refine ⟨by simp, ?_⟩
      intro i h _
      have hi : i = 0 := by
        simp only [List.length_singleton] at h
        omega
      subst hi
      exact ⟨rfl, rfl⟩
    · have hrun : execute_runbook_loop env (s :: rest) =
          (execute_runbook_step env s :: (execute_runbook_loop env rest).1,
           (execute_runbook_loop env rest).2) := by
        simp [execute_runbook_loop, hf]
      rw [hrun]
      refine ⟨?_, ?_⟩
      · simp only [List.length_cons, List.take_succ_cons, List.map_cons]
        exact congrArg₂ List.cons rfl ih.1
      · intro i h hfail
        match i with
        | 0 =>
          exact absurd hfail hf
        | j + 1 =>
          obtain ⟨hj1, hj2⟩ := ih.2 j (by simpa using h) (by simpa using hfail)
          refine ⟨?_, hj2⟩
          simp only [List.length_cons]
          omega

/-! ## First sanity theorems -/

/-- C3: the autonomy gate is a pure function with exactly the documented
mode/risk/allow-list behaviour: `dry_run` never auto-executes; `auto`
auto-executes exactly the allow-listed actions at `low` risk; `approve`
auto-executes exactly the `low`-risk steps, whatever the action. -/
theorem can_auto_execute_spec (action risk_level : String) :
    can_auto_execute action risk_level "dry_run" = false
    ∧ (can_auto_execute action risk_level "auto" = true ↔
        risk_level = "low" ∧ action ∈ low_risk_actions)
    ∧ (can_auto_execute action risk_level "approve" = true ↔ risk_level = "low") := by
  refine ⟨rfl, ?_, ?_⟩ <;> simp [can_auto_execute, and_comm]

/-- C1: both `execute_plan` and `execute_runbook` attempt their steps in
declared order — the recorded results are exactly the per-step outcomes of an
initial segment of the declared step list — and execution halts at the first
step whose result is `failed`: a `failed` result is always the last one
recorded (no later step is ever attempted) and the run-level status reflects
the failure (`partial_failure` for a plan, `failed` for a runbook). -/
theorem plan_and_runbook_run_in_order_and_halt_on_failed
    (env : Step → Bool) (steps : List Step)
    (renv : RbStep → Bool) (rsteps : List RbStep) :
    ((execute_plan env steps).1 =
      (steps.take (execute_plan env steps).1.length).map (plan_step_outcome env))
    ∧ (∀ i, ∀ h : i < (execute_plan env steps).1.length,
        ((execute_plan env steps).1[i]).status = "failed" →
          i + 1 = (execute_plan env steps).1.length
          ∧ (execute_plan env steps).2 = "partial_failure")
    ∧ ((execute_runbook renv rsteps).1 =
        (rsteps.take (execute_runbook renv rsteps).1.length).map (execute_runbook_step renv))
    ∧ (∀ i, ∀ h : i < (execute_runbook renv rsteps).1.length,
        ((execute_runbook renv rsteps).1[i]).status = "failed" →
          i + 1 = (execute_runbook renv rsteps).1.length
          ∧ (execute_runbook renv rsteps).2 = "failed") := by
  have hp := execute_plan_characterization env steps
  have hr := execute_runbook_loop_characterization renv rsteps
  refine ⟨hp.1, hp.2, hr.1, ?_⟩
  intro i h hf
  obtain ⟨h1, h2⟩ := hr.2 i h hf
  refine ⟨h1, ?_⟩
  show (if (execute_runbook_loop renv rsteps).2 = "running" then "completed"
        else (execute_runbook_loop renv rsteps).2) = "failed"
  rw [h2]
  decide

/-- Witness for C1 at a concrete failing plan step and a concrete failing
runbook step. -/
theorem plan_and_runbook_run_in_order_and_halt_on_failed_witness :
    (execute_plan (fun _ => false) [⟨1, "rollout_restart", true⟩]).2 = "partial_failure"
    ∧ (execute_runbook (fun _ => true) [⟨"bogus"⟩]).2 = "failed" := by
  have h := plan_and_runbook_run_in_order_and_halt_on_failed
    (fun _ => false) [⟨1, "rollout_restart", true⟩] (fun _ => true) [⟨"bogus"⟩]
  exact ⟨(h.2.1 0 (by decide) (by decide)).2, (h.2.2.2 0 (by decide) (by decide)).2⟩

/-- C2 counterexample: a plan whose first step is not auto-executable and whose
second step is.  The first step is recorded as `queued_for_approval`, yet the
second step is still attempted — and executed — in the same pass, refuting
"attempts no later step of the Plan in that pass". -/
theorem queued_step_does_not_stop_the_pass_counterexample :
    (execute_plan (fun _ => true)
      [⟨1, "drain_node", false⟩, ⟨2, "rollout_restart", true⟩]).1 =
      [{ step_number := 1, action := "drain_node", status := "queued_for_approval" },
       { step_number := 2, action := "rollout_restart", status := "success" }] := by
  decide

/-- C2 (amended): for a step whose stored `can_auto_execute` annotation is
false, `execute_plan` records the step's result as `queued_for_approval` and
then *continues* with the remaining steps of the plan in the same pass (the
tail is processed exactly as if the queued step had not been there). -/
theorem queued_step_recorded_and_pass_continues
    (env : Step → Bool) (step : Step) (rest : List Step) (h : step.auto = false) :
    execute_plan env (step :: rest) =
      (queue_for_approval step :: (execute_plan env rest).1, (execute_plan env rest).2)
    ∧ (queue_for_approval step).status = "queued_for_approval" := by
  exact ⟨by simp [execute_plan, h], rfl⟩

/-- Witness for the amended C2 at a concrete two-step plan. -/
theorem queued_step_recorded_and_pass_continues_witness :
    execute_plan (fun _ => true) [⟨1, "drain_node", false⟩, ⟨2, "rollout_restart", true⟩] =
      (queue_for_approval ⟨1, "drain_node", false⟩ ::
        (execute_plan (fun _ => true) [⟨2, "rollout_restart", true⟩]).1,
       (execute_plan (fun _ => true) [⟨2, "rollout_restart", true⟩]).2)
    ∧ (queue_for_approval ⟨1, "drain_node", false⟩).status = "queued_for_approval" :=
  queued_step_recorded_and_pass_continues
    (fun _ => true) ⟨1, "drain_node", false⟩ [⟨2, "rollout_restart", true⟩] rfl

/-- C10: a step whose action is none of the five dispatched ones is reported by
`execute_step` as `skipped` (not `failed`) with an unknown-action reason, and —
because `execute_plan` halts on any non-`success` result — such a step still
stops the pass with run status `partial_failure`, the tail never attempted. -/
theorem unknown_action_skipped_still_halts_plan
    (env : Step → Bool) (step : Step) (rest : List Step)
    (hk : step.action ∉ known_actions) (ha : step.auto = true) :
    execute_step env step =
      { step_number := step.step_number, action := step.action, status := "skipped",
        reason := some ("Unknown action: " ++ step.action) }
    ∧ execute_plan env (step :: rest) = ([execute_step env step], "partial_failure") := by
  have hskip : execute_step env step =
      { step_number := step.step_number, action := step.action, status := "skipped",
        reason := some ("Unknown action: " ++ step.action) } := by
    simp [execute_step, hk]
  exact ⟨hskip, by simp [execute_plan, ha, hskip]⟩

/-! ## Similarity theorems -/

/-- The similarity fold computes, over any weight list, the matched-weight and
present-weight sums on top of the starting accumulator. -/
theorem sim_foldl_eq (f1 f2 : FeatureDict) (wl : List (FeatureKey × ℚ)) (a b : ℚ) :
    wl.foldl
      (fun (acc : ℚ × ℚ) fw =>
        match f1 fw.1, f2 fw.1 with
        | some v1, some v2 =>
          (if v1 = v2 then acc.1 + fw.2 else acc.1, acc.2 + fw.2)
        | _, _ => acc)
      (a, b) =
    (a + ((wl.filter (fun fw =>
        (f1 fw.1).isSome && (f2 fw.1).isSome && decide (f1 fw.1 = f2 fw.1))).map Prod.snd).sum,
     b + ((wl.filter (fun fw =>
        (f1 fw.1).isSome && (f2 fw.1).isSome)).map Prod.snd).sum) := by
  induction wl generalizing a b with
  | nil => simp
  | cons fw rest ih =>
    simp only [List.foldl_cons, List.filter_cons]
    cases h1 : f1 fw.1 with
    | none => simp [h1, ih a b]
    | some v1 =>
      cases h2 : f2 fw.1 with
      | none => simp [h1, h2, ih a b]
      | some v2 =>
        by_cases he : v1 = v2
        · subst he
          simp [h1, h2, ih, add_assoc]
        · simp [h1, h2, he, ih, add_assoc]

/-- `calculate_similarity` in closed form: matched weight over present weight,
guarded by a positive denominator. -/
theorem calculate_similarity_eq (f1 f2 : FeatureDict) :
    calculate_similarity f1 f2 =
      if 0 < present_weight f1 f2 then matched_weight f1 f2 / present_weight f1 f2
      else 0 := by
  unfold calculate_similarity
  rw [sim_foldl_eq]
  simp [matched_weight, present_weight, gt_iff_lt]

/-- C5: the similarity score is the weighted feature-agreement score with the
fixed weights 0.30/0.10/0.10/0.20/0.10/0.20: the sum of the weights of the
exactly-matching features divided by the sum of the weights of the features
present in both sides, so a feature missing from either side is excluded from
the denominator and does not penalize the score. -/
theorem similarity_is_weighted_feature_agreement (f1 f2 : FeatureDict) :
    weights = [(.failure_type, 3/10), (.cluster, 1/10), (.namespace_key, 1/10),
               (.resource_type, 2/10), (.severity, 1/10), (.actions, 2/10)]
    ∧ calculate_similarity f1 f2 =
        (if 0 < present_weight f1 f2 then matched_weight f1 f2 / present_weight f1 f2
         else 0) :=
  ⟨rfl, calculate_similarity_eq f1 f2⟩

/-- C9: when no weighted feature is present on both sides, the accumulated
total weight is zero, the division is not taken, and the score is exactly 0. -/
theorem similarity_zero_when_nothing_shared (f1 f2 : FeatureDict)
    (h : ∀ fw ∈ weights, f1 fw.1 = none ∨ f2 fw.1 = none) :
    present_weight f1 f2 = 0 ∧ calculate_similarity f1 f2 = 0 := by
  have hnil : weights.filter (fun fw => (f1 fw.1).isSome && (f2 fw.1).isSome) = [] := by
    rw [List.filter_eq_nil_iff]
    intro fw hfw
    rcases h fw hfw with h' | h' <;> simp [h']
  have hp : present_weight f1 f2 = 0 := by simp [present_weight, hnil]
  refine ⟨hp, ?_⟩
  rw [calculate_similarity_eq, hp]
  simp

/-- Witness for C9: two dictionaries with no key present at all score 0. -/
theorem similarity_zero_when_nothing_shared_witness :
    present_weight (fun _ => none) (fun _ => none) = 0
    ∧ calculate_similarity (fun _ => none) (fun _ => none) = 0 :=
  similarity_zero_when_nothing_shared _ _ (fun _ _ => Or.inl rfl)

/-! ## Binary64 rounding lemmas -/

/-- `rhe` on a value below the halfway point rounds down. -/
theorem rhe_low {x : ℚ} (m : ℤ) (h1 : (m:ℚ) ≤ x) (h2 : x < (m:ℚ) + 1/2) : rhe x = m := by
  have hfl : ⌊x⌋ = m := Int.floor_eq_iff.mpr ⟨h1, by linarith⟩
  unfold rhe
  rw [hfl, if_pos (by linarith)]

/-- `rhe` on a value above the halfway point rounds up. -/
theorem rhe_high {x : ℚ} (m : ℤ) (h1 : (m:ℚ) + 1/2 < x) (h2 : x < (m:ℚ) + 1) :
    rhe x = m + 1 := by
  have hfl : ⌊x⌋ = m := Int.floor_eq_iff.mpr ⟨by linarith, by linarith⟩
  unfold rhe
  rw [hfl, if_neg (by linarith), if_pos (by linarith)]

/-- `rhe` on an exact halfway point with even floor stays. -/
theorem rhe_half_even (m : ℤ) (h : m % 2 = 0) : rhe ((m:ℚ) + 1/2) = m := by
  have hfl : ⌊(m:ℚ) + 1/2⌋ = m := Int.floor_eq_iff.mpr ⟨by linarith, by norm_num⟩
  unfold rhe
  rw [hfl, if_neg (by norm_num), if_neg (by norm_num), if_pos (Int.dvd_of_emod_eq_zero h)]

/-- `rhe` on an exact halfway point with odd floor rounds up. -/
theorem rhe_half_odd (m : ℤ) (h : m % 2 = 1) : rhe ((m:ℚ) + 1/2) = m + 1 := by
  have hfl : ⌊(m:ℚ) + 1/2⌋ = m := Int.floor_eq_iff.mpr ⟨by linarith, by norm_num⟩
  unfold rhe
  rw [hfl, if_neg (by norm_num), if_neg (by norm_num), if_neg (by omega)]

theorem rhe_ge_floor (x : ℚ) : ⌊x⌋ ≤ rhe x := by
  unfold rhe
  split
  · exact le_refl _
  · split
    · omega
    · split
      · exact le_refl _
      · omega

theorem log_eq_of_bounds {q : ℚ} {e : ℤ} (hq : 0 < q)
    (h1 : (2:ℚ)^e ≤ q) (h2 : q < (2:ℚ)^(e+1)) : Int.log 2 q = e := by
  have hle : e ≤ Int.log 2 q := (Int.zpow_le_iff_le_log (by norm_num) hq).mp h1
  have hlt : Int.log 2 q < e + 1 := (Int.lt_zpow_iff_log_lt (by norm_num) hq).mp h2
  omega

/-- Workhorse for evaluating `roundb64` at a concrete positive rational: give
the binade `e`, the scale `k = 52 - e`, the rounded integer significand `m`
and the resulting value. -/
theorem roundb64_step {q : ℚ} {e m : ℤ} {k : ℕ} {r : ℚ}
    (hk : (52:ℤ) - e = (k:ℤ))
    (hq : 0 < q)
    (hlow : (2:ℚ)^e ≤ q) (hhigh : q < (2:ℚ)^(e+1))
    (hm : rhe (q * 2^k) = m)
    (hr : (m:ℚ) / 2^k = r) :
    roundb64 q = r := by
  unfold roundb64
  rw [if_neg hq.ne', abs_of_pos hq, log_eq_of_bounds hq hlow hhigh, hk]
  have hneg : e - 52 = -(k:ℤ) := by omega
  rw [hneg, zpow_natCast, zpow_neg, zpow_natCast, hm, ← hr, div_eq_mul_inv]

/-- A dyadic rational with a 53-bit significand is returned unchanged. -/
theorem roundb64_rep {m : ℤ} {k : ℕ} (h1 : 2^52 ≤ m) (h2 : m < 2^53) :
    roundb64 ((m:ℚ)/2^k) = (m:ℚ)/2^k := by
  refine roundb64_step (e := (52:ℤ) - k) (k := k) (m := m) (by omega) ?_ ?_ ?_ ?_ rfl
  · have : (0:ℚ) < (m:ℚ) := by positivity
    positivity
  · have hz : (2:ℚ)^((52:ℤ) - (k:ℤ)) = (2:ℚ)^(52:ℕ) / (2:ℚ)^(k:ℕ) := by
      rw [zpow_sub₀ (by norm_num)]
      norm_num
    rw [hz]
    exact div_le_div_of_nonneg_right (by exact_mod_cast h1) (by positivity)
  · have hz : (2:ℚ)^(((52:ℤ) - (k:ℤ)) + 1) = (2:ℚ)^(53:ℕ) / (2:ℚ)^(k:ℕ) := by
      rw [show ((52:ℤ) - (k:ℤ)) + 1 = (53:ℤ) - (k:ℤ) by ring, zpow_sub₀ (by norm_num)]
      norm_num
    rw [hz]
    exact (div_lt_div_iff_of_pos_right (by positivity)).mpr (by exact_mod_cast h2)
  · have hx : ((m:ℚ)/2^k) * 2^k = (m:ℚ) := by
      field_simp
    rw [hx]
    exact rhe_low m (le_refl _) (by linarith)

/-- Rounding a positive rational yields a positive value. -/
theorem roundb64_pos {q : ℚ} (hq : 0 < q) : 0 < roundb64 q := by
  unfold roundb64
  rw [if_neg hq.ne', abs_of_pos hq]
  have h1 : (2:ℚ)^(Int.log 2 q) ≤ q := Int.zpow_log_le_self (by norm_num) hq
  have hx : (1:ℚ) ≤ q * 2^((52:ℤ) - Int.log 2 q) := by
    have hp : (0:ℚ) < (2:ℚ)^((52:ℤ) - Int.log 2 q) := zpow_pos (by norm_num) _
    have hmul : (2:ℚ)^(Int.log 2 q) * (2:ℚ)^((52:ℤ) - Int.log 2 q)
        ≤ q * 2^((52:ℤ) - Int.log 2 q) :=
      mul_le_mul_of_nonneg_right h1 hp.le
    calc (1:ℚ) ≤ (2:ℚ)^(52:ℤ) := by norm_num
    _ = (2:ℚ)^(Int.log 2 q) * (2:ℚ)^((52:ℤ) - Int.log 2 q) := by
        rw [← zpow_add₀ (show (2:ℚ) ≠ 0 by norm_num)]
        congr 1
        omega
    _ ≤ q * 2^((52:ℤ) - Int.log 2 q) := hmul
  have hfl : (1:ℤ) ≤ ⌊q * 2^((52:ℤ) - Int.log 2 q)⌋ := by
    rw [Int.le_floor]
    exact_mod_cast hx
  have hrhe : (0:ℤ) < rhe (q * 2^((52:ℤ) - Int.log 2 q)) :=
    lt_of_lt_of_le zero_lt_one (le_trans hfl (rhe_ge_floor _))
  exact mul_pos (by exact_mod_cast hrhe) (zpow_pos (by norm_num) _)

theorem roundb64_one : roundb64 1 = 1 := by
  have h := roundb64_rep (m := 4503599627370496) (k := 52) (by norm_num) (by norm_num)
  rw [show (1:ℚ) = ((4503599627370496:ℤ):ℚ)/2^52 by norm_num]
  exact h

/-! ### The binary64 values of the source's decimal literals -/

theorem roundb64_tenth : roundb64 (1/10) = d01 := by
  refine roundb64_step (e := -4) (k := 56) (m := 7205759403792794) (by decide)
    (by norm_num) (by norm_num) (by norm_num) ?_ ?_
  · have hx : ((1:ℚ)/10) * 2^56 = ((7205759403792793:ℤ):ℚ) + 3/5 := by norm_num
    rw [hx]
    have := rhe_high (x := ((7205759403792793:ℤ):ℚ) + 3/5) 7205759403792793
      (by norm_num) (by norm_num)
    rw [this]
    decide
  · norm_num [d01]

theorem roundb64_fifth : roundb64 (1/5) = d02 := by
  refine roundb64_step (e := -3) (k := 55) (m := 7205759403792794) (by decide)
    (by norm_num) (by norm_num) (by norm_num) ?_ ?_
  · have hx : ((1:ℚ)/5) * 2^55 = ((7205759403792793:ℤ):ℚ) + 3/5 := by norm_num
    rw [hx]
    have := rhe_high (x := ((7205759403792793:ℤ):ℚ) + 3/5) 7205759403792793
      (by norm_num) (by norm_num)
    rw [this]
    decide
  · norm_num [d02]

theorem roundb64_three_tenths : roundb64 (3/10) = d03 := by
  refine roundb64_step (e := -2) (k := 54) (m := 5404319552844595) (by decide)
    (by norm_num) (by norm_num) (by norm_num) ?_ ?_
  · have hx : ((3:ℚ)/10) * 2^54 = ((5404319552844595:ℤ):ℚ) + 1/5 := by norm_num
    rw [hx]
    exact rhe_low 5404319552844595 (by norm_num) (by norm_num)
  · norm_num [d03]

theorem roundb64_seven_tenths : roundb64 (7/10) = d07 := by
  refine roundb64_step (e := -1) (k := 53) (m := 6305039478318694) (by decide)
    (by norm_num) (by norm_num) (by norm_num) ?_ ?_
  · have hx : ((7:ℚ)/10) * 2^53 = ((6305039478318694:ℤ):ℚ) + 2/5 := by norm_num
    rw [hx]
    exact rhe_low 6305039478318694 (by norm_num) (by norm_num)
  · norm_num [d07]

/-! ### The additions and divisions reached by the concrete similarity runs -/

theorem fadd_zero_d03 : fadd 0 d03 = d03 := by
  unfold fadd
  rw [zero_add]
  have h := roundb64_rep (m := 5404319552844595) (k := 54) (by norm_num) (by norm_num)
  rw [show d03 = ((5404319552844595:ℤ):ℚ)/2^54 by norm_num [d03]]
  exact h

theorem fadd_d03_d01 : fadd d03 d01 = d04 := by
  unfold fadd
  refine roundb64_step (e := -2) (k := 54) (m := 7205759403792794) (by decide)
    (by norm_num [d03, d01]) (by norm_num [d03, d01]) (by norm_num [d03, d01]) ?_ ?_
  · have hx : (d03 + d01) * 2^54 = ((7205759403792793:ℤ):ℚ) + 1/2 := by norm_num [d03, d01]
    rw [hx]
    have := rhe_half_odd 7205759403792793 (by decide)
    rw [this]
    decide
  · norm_num [d04]

theorem fadd_d04_d01 : fadd d04 d01 = (2:ℚ)⁻¹ := by
  unfold fadd
  refine roundb64_step (e := -1) (k := 53) (m := 4503599627370496) (by decide)
    (by norm_num [d04, d01]) (by norm_num [d04, d01]) (by norm_num [d04, d01]) ?_ ?_
  · have hx : (d04 + d01) * 2^53 = ((4503599627370496:ℤ):ℚ) + 1/4 := by norm_num [d04, d01]
    rw [hx]
    exact rhe_low 4503599627370496 (by norm_num) (by norm_num)
  · norm_num

theorem fadd_half_d02 : fadd (2:ℚ)⁻¹ d02 = d07 := by
  unfold fadd
  refine roundb64_step (e := -1) (k := 53) (m := 6305039478318694) (by decide)
    (by norm_num [d02]) (by norm_num [d02]) (by norm_num [d02]) ?_ ?_
  · have hx : ((2:ℚ)⁻¹ + d02) * 2^53 = ((6305039478318694:ℤ):ℚ) + 1/2 := by norm_num [d02]
    rw [hx]
    exact rhe_half_even 6305039478318694 (by decide)
  · norm_num [d07]

theorem fadd_d07_d01 : fadd d07 d01 = d08 := by
  unfold fadd
  refine roundb64_step (e := -1) (k := 53) (m := 7205759403792793) (by decide)
    (by norm_num [d07, d01]) (by norm_num [d07, d01]) (by norm_num [d07, d01]) ?_ ?_
  · have hx : (d07 + d01) * 2^53 = ((7205759403792793:ℤ):ℚ) + 1/4 := by norm_num [d07, d01]
    rw [hx]
    exact rhe_low 7205759403792793 (by norm_num) (by norm_num)
  · norm_num [d08]

theorem fadd_d08_d02 : fadd d08 d02 = 1 := by
  unfold fadd
  refine roundb64_step (e := -1) (k := 53) (m := 9007199254740992) (by decide)
    (by norm_num [d08, d02]) (by norm_num [d08, d02]) (by norm_num [d08, d02]) ?_ ?_
  · have hx : (d08 + d02) * 2^53 = ((9007199254740991:ℤ):ℚ) + 1/2 := by norm_num [d08, d02]
    rw [hx]
    have := rhe_half_odd 9007199254740991 (by decide)
    rw [this]
    decide
  · norm_num

theorem fadd_d04_d02 : fadd d04 d02 = d06 := by
  unfold fadd
  refine roundb64_step (e := -1) (k := 53) (m := 5404319552844596) (by decide)
    (by norm_num [d04, d02]) (by norm_num [d04, d02]) (by norm_num [d04, d02]) ?_ ?_
  · have hx : (d04 + d02) * 2^53 = ((5404319552844595:ℤ):ℚ) + 1/2 := by norm_num [d04, d02]
    rw [hx]
    have := rhe_half_odd 5404319552844595 (by decide)
    rw [this]
    decide
  · norm_num [d06]

theorem fadd_d06_d01 : fadd d06 d01 = d07p := by
  unfold fadd
  refine roundb64_step (e := -1) (k := 53) (m := 6305039478318695) (by decide)
    (by norm_num [d06, d01]) (by norm_num [d06, d01]) (by norm_num [d06, d01]) ?_ ?_
  · have hx : (d06 + d01) * 2^53 = ((6305039478318695:ℤ):ℚ) + 1/4 := by norm_num [d06, d01]
    rw [hx]
    exact rhe_low 6305039478318695 (by norm_num) (by norm_num)
  · norm_num [d07p]

theorem fdiv_d07_one : fdiv d07 1 = d07 := by
  unfold fdiv
  rw [div_one]
  have h := roundb64_rep (m := 6305039478318694) (k := 53) (by norm_num) (by norm_num)
  rw [show d07 = ((6305039478318694:ℤ):ℚ)/2^53 by norm_num [d07]]
  exact h

theorem fdiv_d07p_one : fdiv d07p 1 = d07p := by
  unfold fdiv
  rw [div_one]
  have h := roundb64_rep (m := 6305039478318695) (k := 53) (by norm_num) (by norm_num)
  rw [show d07p = ((6305039478318695:ℤ):ℚ)/2^53 by norm_num [d07p]]
  exact h

theorem fdiv_one_one : fdiv 1 1 = 1 := by
  unfold fdiv
  rw [div_one]
  exact roundb64_one

/-! ### Generic facts about the float accumulation -/

/-- When every feature present on both sides agrees, the score and total
accumulators perform the same additions and stay bit-equal. -/
theorem sim_fold_f64_fst_eq_snd (f1 f2 : FeatureDict) (wl : List (FeatureKey × ℚ))
    (hall : ∀ fw ∈ wl, (f1 fw.1).isSome → (f2 fw.1).isSome → f1 fw.1 = f2 fw.1) :
    ∀ a : ℚ, (wl.foldl (sim_step_f64 f1 f2) (a, a)).1
      = (wl.foldl (sim_step_f64 f1 f2) (a, a)).2 := by
  induction wl with
  | nil => intro a; rfl
  | cons fw rest ih =>
    intro a
    have hrest : ∀ fw ∈ rest, (f1 fw.1).isSome → (f2 fw.1).isSome → f1 fw.1 = f2 fw.1 :=
      fun fw hfw => hall fw (List.mem_cons_of_mem _ hfw)
    simp only [List.foldl_cons]
    cases hc1 : f1 fw.1 with
    | none =>
      simp only [sim_step_f64, hc1]
      exact ih hrest a
    | some v1 =>
      cases hc2 : f2 fw.1 with
      | none =>
        simp only [sim_step_f64, hc1, hc2]
        exact ih hrest a
      | some v2 =>
        have heq : v1 = v2 := by
          have h := hall fw (List.mem_cons_self _ _) (by simp [hc1]) (by simp [hc2])
          rw [hc1, hc2] at h
          exact Option.some.inj h
        subst heq
        simp only [sim_step_f64, hc1, hc2, if_pos rfl]
        exact ih hrest (fadd a fw.2)

/-- The total accumulator stays nonnegative and, once some feature is present
on both sides, strictly positive. -/
theorem sim_fold_f64_snd_pos (f1 f2 : FeatureDict) (wl : List (FeatureKey × ℚ))
    (hw : ∀ fw ∈ wl, 0 < fw.2) :
    ∀ a b : ℚ, 0 ≤ b →
      (0 < b ∨ ∃ fw ∈ wl, (f1 fw.1).isSome ∧ (f2 fw.1).isSome) →
      0 < (wl.foldl (sim_step_f64 f1 f2) (a, b)).2 := by
  induction wl with
  | nil =>
    intro a b hb hcase
    rcases hcase with h | ⟨fw, hfw, _⟩
    · exact h
    · exact absurd hfw (List.not_mem_nil _)
  | cons fw rest ih =>
    intro a b hb hcase
    have hwrest : ∀ fw ∈ rest, 0 < fw.2 := fun fw hfw => hw fw (List.mem_cons_of_mem _ hfw)
    simp only [List.foldl_cons]
    cases hc1 : f1 fw.1 with
    | none =>
      simp only [sim_step_f64, hc1]
      refine ih hwrest a b hb ?_
      rcases hcase with h | ⟨fw2, hfw2, hp1, hp2⟩
      · exact Or.inl h
      · rcases List.mem_cons.mp hfw2 with rfl | hfw2'
        · rw [hc1] at hp1
          simp at hp1
        · exact Or.inr ⟨fw2, hfw2', hp1, hp2⟩
    | some v1 =>
      cases hc2 : f2 fw.1 with
      | none =>
        simp only [sim_step_f64, hc1, hc2]
        refine ih hwrest a b hb ?_
        rcases hcase with h | ⟨fw2, hfw2, hp1, hp2⟩
        · exact Or.inl h
        · rcases List.mem_cons.mp hfw2 with rfl | hfw2'
          · rw [hc2] at hp2
            simp at hp2
          · exact Or.inr ⟨fw2, hfw2', hp1, hp2⟩
      | some v2 =>
        have hpos : 0 < fadd b fw.2 := by
          unfold fadd
          exact roundb64_pos (by have := hw fw (List.mem_cons_self _ _); linarith)
        simp only [sim_step_f64, hc1, hc2]
        by_cases hv : v1 = v2
        · rw [if_pos hv]
          exact ih hwrest (fadd a fw.2) (fadd b fw.2) hpos.le (Or.inl hpos)
        · rw [if_neg hv]
          exact ih hwrest a (fadd b fw.2) hpos.le (Or.inl hpos)

/-- C7: whenever exactly two of the six weighted features are shared (present
on both sides with equal values) and each of the other four is missing from at
least one side, the score is 1 — the same value whichever two features are the
shared ones, so missing-feature handling is symmetric across features.  This
holds both for the real-arithmetic reading and for the bit-exact binary64
execution: the score and total accumulators perform the identical sequence of
float additions, so the final division is of a value by itself. -/
theorem similarity_shared_two_features_scores_one (f1 f2 : FeatureDict) (k1 k2 : FeatureKey)
    (hne : k1 ≠ k2)
    (h1 : ∃ v, f1 k1 = some v ∧ f2 k1 = some v)
    (h2 : ∃ v, f1 k2 = some v ∧ f2 k2 = some v)
    (habs : ∀ k, k ≠ k1 → k ≠ k2 → f1 k = none ∨ f2 k = none) :
    calculate_similarity f1 f2 = 1 ∧ calculate_similarity_f64 f1 f2 = 1 := by
  obtain ⟨v1, hv11, hv12⟩ := h1
  have hfilters :
      weights.filter (fun fw =>
        (f1 fw.1).isSome && (f2 fw.1).isSome && decide (f1 fw.1 = f2 fw.1))
        = weights.filter (fun fw => (f1 fw.1).isSome && (f2 fw.1).isSome) := by
    apply List.filter_congr
    intro fw _
    by_cases hk1 : fw.1 = k1
    · rw [hk1, hv11, hv12]; simp
    · by_cases hk2 : fw.1 = k2
      · obtain ⟨v2, hv21, hv22⟩ := h2
        rw [hk2, hv21, hv22]; simp
      · rcases habs fw.1 hk1 hk2 with h' | h' <;> simp [h']
  have hmp : matched_weight f1 f2 = present_weight f1 f2 := by
    rw [matched_weight, present_weight, hfilters]
  have hkmem : ∃ w : ℚ, 0 < w ∧ (k1, w) ∈ weights := by
    cases k1
    · exact ⟨3/10, by norm_num, by simp [weights]⟩
    · exact ⟨1/10, by norm_num, by simp [weights]⟩
    · exact ⟨1/10, by norm_num, by simp [weights]⟩
    · exact ⟨2/10, by norm_num, by simp [weights]⟩
    · exact ⟨1/10, by norm_num, by simp [weights]⟩
    · exact ⟨2/10, by norm_num, by simp [weights]⟩
  obtain ⟨w, hw, hmemw⟩ := hkmem
  have hcond : ((f1 ((k1, w) : FeatureKey × ℚ).1).isSome
      && (f2 ((k1, w) : FeatureKey × ℚ).1).isSome) = true := by
    simp [hv11, hv12]
  have hmem : w ∈ ((weights.filter (fun fw =>
      (f1 fw.1).isSome && (f2 fw.1).isSome)).map Prod.snd) :=
    List.mem_map.mpr ⟨(k1, w), List.mem_filter.mpr ⟨hmemw, hcond⟩, rfl⟩
  have hnonneg : ∀ x ∈ ((weights.filter (fun fw =>
      (f1 fw.1).isSome && (f2 fw.1).isSome)).map Prod.snd), (0:ℚ) ≤ x := by
    intro x hx
    obtain ⟨fw, hfw, rfl⟩ := List.mem_map.mp hx
    have hfw2 := List.mem_of_mem_filter hfw
    fin_cases hfw2 <;> norm_num
  have hpos : 0 < present_weight f1 f2 :=
    lt_of_lt_of_le hw (List.single_le_sum hnonneg _ hmem)
  refine ⟨by rw [calculate_similarity_eq, if_pos hpos, hmp, div_self (ne_of_gt hpos)], ?_⟩
  have hall : ∀ fw ∈ weights_f64, (f1 fw.1).isSome → (f2 fw.1).isSome → f1 fw.1 = f2 fw.1 := by
    intro fw _ hs1 hs2
    by_cases hfk1 : fw.1 = k1
    · rw [hfk1, hv11, hv12]
    · by_cases hfk2 : fw.1 = k2
      · obtain ⟨v2, hv21, hv22⟩ := h2
        rw [hfk2, hv21, hv22]
      · rcases habs fw.1 hfk1 hfk2 with h' | h'
        · rw [h'] at hs1
          simp at hs1
        · rw [h'] at hs2
          simp at hs2
  have hwpos : ∀ fw ∈ weights_f64, 0 < fw.2 := by
    intro fw hfw
    fin_cases hfw <;> norm_num [d01, d02, d03]
  have hk1mem : ∃ fw ∈ weights_f64, (f1 fw.1).isSome ∧ (f2 fw.1).isSome := by
    cases k1
    · exact ⟨(.failure_type, d03), by simp [weights_f64], by simp [hv11], by simp [hv12]⟩
    · exact ⟨(.cluster, d01), by simp [weights_f64], by simp [hv11], by simp [hv12]⟩
    · exact ⟨(.namespace_key, d01), by simp [weights_f64], by simp [hv11], by simp [hv12]⟩
    · exact ⟨(.resource_type, d02), by simp [weights_f64], by simp [hv11], by simp [hv12]⟩
    · exact ⟨(.severity, d01), by simp [weights_f64], by simp [hv11], by simp [hv12]⟩
    · exact ⟨(.actions, d02), by simp [weights_f64], by simp [hv11], by simp [hv12]⟩
  have hEq := sim_fold_f64_fst_eq_snd f1 f2 weights_f64 hall 0
  have hTpos := sim_fold_f64_snd_pos f1 f2 weights_f64 hwpos 0 0 le_rfl (Or.inr hk1mem)
  show (if (weights_f64.foldl (sim_step_f64 f1 f2) (0, 0)).2 > 0 then
      fdiv (weights_f64.foldl (sim_step_f64 f1 f2) (0, 0)).1
        (weights_f64.foldl (sim_step_f64 f1 f2) (0, 0)).2
    else 0) = 1
  rw [if_pos hTpos, hEq]
  unfold fdiv
  rw [div_self (ne_of_gt hTpos)]
  exact roundb64_one

/-- Witness for C7: a dictionary sharing exactly `failure_type` and `cluster`
with itself scores 1 in both models. -/
theorem similarity_shared_two_features_scores_one_witness :
    calculate_similarity two_feature_dict two_feature_dict = 1
    ∧ calculate_similarity_f64 two_feature_dict two_feature_dict = 1 :=
  similarity_shared_two_features_scores_one two_feature_dict two_feature_dict
    .failure_type .cluster (by decide)
    ⟨.str "oom_killed", rfl, rfl⟩ ⟨.str "c1", rfl, rfl⟩
    (by
      intro k hk1 hk2
      cases k
      · exact absurd rfl hk1
      · exact absurd rfl hk2
      · exact Or.inl rfl
      · exact Or.inl rfl
      · exact Or.inl rfl
      · exact Or.inl rfl)

/-! ### Concrete binary64 similarity evaluations -/

/-- The excluded pair: the matches on `failure_type`, `cluster`, `namespace`
and `resource_type` accumulate as 0.3 → 0.4 → 0.5 → 0.7 while the total over
all six features accumulates to exactly 1.0, so the program computes exactly
the binary64 value of `0.7`. -/
theorem threshold_item_f64_score :
    calculate_similarity_f64 (extract_runbook_features threshold_query) threshold_item_f64
      = d07 := by
  simp [calculate_similarity_f64, weights_f64, sim_step_f64, extract_runbook_features,
    threshold_query, threshold_item_f64, fadd_zero_d03, fadd_d03_d01, fadd_d04_d01,
    fadd_half_d02, fadd_d07_d01, fadd_d08_d02, fdiv_d07_one]

/-- The returned pair: matching `severity` instead of `cluster` changes the
accumulation order (0.3, skip, 0.4, 0.6000000000000001, 0.7000000000000001),
one ulp above the threshold. -/
theorem threshold_item_returned_score :
    calculate_similarity_f64 (extract_runbook_features threshold_query) threshold_item
      = d07p := by
  simp [calculate_similarity_f64, weights_f64, sim_step_f64, extract_runbook_features,
    threshold_query, threshold_item, fadd_zero_d03, fadd_d03_d01, fadd_d04_d02,
    fadd_d06_d01, fadd_d04_d01, fadd_half_d02, fadd_d07_d01, fadd_d08_d02, fdiv_d07p_one]

/-- A catalog item identical to the query scores exactly 1.0. -/
theorem identical_item_f64_score :
    calculate_similarity_f64 (extract_runbook_features threshold_query) identical_item
      = 1 := by
  simp [calculate_similarity_f64, weights_f64, sim_step_f64, extract_runbook_features,
    threshold_query, identical_item, fadd_zero_d03, fadd_d03_d01, fadd_d04_d01,
    fadd_half_d02, fadd_d07_d01, fadd_d08_d02, fdiv_one_one]

/-- The excluded pair's exact weighted ratio is exactly 7/10: matched weight
0.3+0.1+0.1+0.2 over full present weight 1. -/
theorem threshold_item_f64_exact_ratio :
    matched_weight (extract_runbook_features threshold_query) threshold_item_f64 = 7/10
    ∧ present_weight (extract_runbook_features threshold_query) threshold_item_f64 = 1 := by
  constructor
  · simp [matched_weight, weights, extract_runbook_features, threshold_query,
      threshold_item_f64]
    norm_num
  · simp [present_weight, weights, extract_runbook_features, threshold_query,
      threshold_item_f64]
    norm_num

theorem similar_hits_at_threshold_empty :
    similar_hits threshold_query [threshold_item_f64] = [] := by
  simp [similar_hits, threshold_item_f64_score]

theorem similar_hits_returned :
    similar_hits threshold_query [threshold_item] = [(threshold_item, d07p)] := by
  simp [similar_hits, threshold_item_returned_score, show d07 < d07p by norm_num [d07, d07p]]

theorem similar_hits_identical :
    similar_hits threshold_query [identical_item] = [(identical_item, 1)] := by
  simp [similar_hits, identical_item_f64_score, show d07 < 1 by norm_num [d07]]

/-- C6 counterexample: under the program's own binary64 arithmetic, a catalog
item whose similarity score is exactly 0.70 — exactly the binary64 value of
the literal `0.7`, with exact weighted ratio exactly 7/10 — is *not* returned
by `get_similar_runbooks`: the code keeps candidates only when the score is
strictly greater than 0.7 (runbook_manager.py line 303).  By contrast, an item
with the same exact ratio 7/10 whose float accumulation rounds one ulp higher
(0.7000000000000001) is returned, so exclusion is decided exactly at the
threshold value. -/
theorem threshold_score_excluded_counterexample :
    calculate_similarity_f64 (extract_runbook_features threshold_query) threshold_item_f64 = d07
    ∧ roundb64 (7/10) = d07
    ∧ matched_weight (extract_runbook_features threshold_query) threshold_item_f64 = 7/10
    ∧ present_weight (extract_runbook_features threshold_query) threshold_item_f64 = 1
    ∧ get_similar_runbooks threshold_query [threshold_item_f64] = []
    ∧ calculate_similarity_f64 (extract_runbook_features threshold_query) threshold_item = d07p
    ∧ d07 < d07p
    ∧ get_similar_runbooks threshold_query [threshold_item] = [(threshold_item, d07p)] := by
  refine ⟨threshold_item_f64_score, roundb64_seven_tenths,
    threshold_item_f64_exact_ratio.1, threshold_item_f64_exact_ratio.2, ?_,
    threshold_item_returned_score, by norm_num [d07, d07p], ?_⟩
  · unfold get_similar_runbooks
    rw [similar_hits_at_threshold_empty]
    rfl
  · unfold get_similar_runbooks
    rw [similar_hits_returned]
    rfl

/-- C6 (amended): under the program's binary64 arithmetic the similarity
search treats a score *strictly greater* than 0.70 as a usable match — a
candidate whose computed score is exactly 0.70 is excluded — the returned
candidates carry their scores and are ranked by score in descending order, and
an empty catalog or an all-at-or-below-threshold result yields an empty match
list, not an error. -/
theorem similar_runbooks_strict_threshold_ranked (rd : RunbookData) (catalog : List FeatureDict) :
    get_similar_runbooks rd [] = []
    ∧ (∀ p ∈ get_similar_runbooks rd catalog,
        d07 < p.2 ∧ p.2 = calculate_similarity_f64 (extract_runbook_features rd) p.1)
    ∧ ((∀ rb ∈ catalog, calculate_similarity_f64 (extract_runbook_features rd) rb ≤ d07) →
        get_similar_runbooks rd catalog = [])
    ∧ List.Pairwise score_ge (get_similar_runbooks rd catalog) := by
  refine ⟨rfl, ?_, ?_, ?_⟩
  · intro p hp
    have hp1 : p ∈ (List.insertionSort score_ge (similar_hits rd catalog)).take 10 := hp
    have hp2 : p ∈ similar_hits rd catalog := by
      have := List.take_subset 10 _ hp1
      simpa using this
    obtain ⟨rb, hrb, hsome⟩ := List.mem_filterMap.mp hp2
    by_cases hgt : d07 < calculate_similarity_f64 (extract_runbook_features rd) rb
    · have : some (rb, calculate_similarity_f64 (extract_runbook_features rd) rb) = some p := by
        simpa [hgt] using hsome
      cases this
      exact ⟨hgt, rfl⟩
    · rw [if_neg hgt] at hsome
      cases hsome
  · intro hall
    have hnil : similar_hits rd catalog = [] := by
      unfold similar_hits
      rw [List.filterMap_eq_nil_iff]
      intro rb hrb
      simp only
      exact if_neg (not_lt.mpr (hall rb hrb))
    show (List.insertionSort score_ge (similar_hits rd catalog)).take 10 = []
    rw [hnil]
    rfl
  · have hs := List.sorted_insertionSort score_ge (similar_hits rd catalog)
    exact List.Pairwise.sublist (List.take_sublist _ _) hs

/-- Witness for the amended C6: a perfect-match catalog item scores strictly
above the threshold and is returned; an exactly-at-threshold catalog yields
the empty match list. -/
theorem similar_runbooks_strict_threshold_ranked_witness :
    d07 < calculate_similarity_f64 (extract_runbook_features threshold_query) identical_item
    ∧ get_similar_runbooks threshold_query [threshold_item_f64] = [] := by
  refine ⟨?_, ?_⟩
  · have hconc : get_similar_runbooks threshold_query [identical_item] =
        [(identical_item, 1)] := by
      unfold get_similar_runbooks
      rw [similar_hits_identical]
      rfl
    have hmem : ((identical_item, (1:ℚ)) : FeatureDict × ℚ)
        ∈ get_similar_runbooks threshold_query [identical_item] := by
      rw [hconc]
      exact List.mem_singleton.mpr rfl
    obtain ⟨hgt, heq⟩ :=
      (similar_runbooks_strict_threshold_ranked threshold_query [identical_item]).2.1 _ hmem
    rw [heq] at hgt
    exact hgt
  · refine (similar_runbooks_strict_threshold_ranked threshold_query [threshold_item_f64]).2.2.1 ?_
    intro rb hrb
    rw [List.mem_singleton] at hrb
    subst hrb
    rw [threshold_item_f64_score]

/-! ## Approval-resolution theorems -/

/-- Looking an id up after `update_approval_request` yields the stored record
with its status, approver and timestamp replaced. -/
theorem get_update_approval (store : ApprovalStore) (approval_id status user_id now : String) :
    get_approval_request (update_approval_request store approval_id status user_id now) approval_id
      = (get_approval_request store approval_id).map
          (fun req => resolve_record req status user_id now) := by
  induction store with
  | nil => rfl
  | cons p rest ih =>
    by_cases hp : p.1 = approval_id
    · simp [update_approval_request, get_approval_request, hp]
    · simpa [update_approval_request, get_approval_request, hp] using ih

/-- C4: an ApprovalRequest is resolved at most once.  Resolving an unknown id
fails with a not-found outcome and leaves the table unchanged; resolving a
request whose status is not `pending` fails with an already-resolved outcome
and leaves the table unchanged; and after a successful resolution (`approved`
or `rejected`) the record holds the decision, so any second resolution attempt
on the same id fails with already-resolved and changes nothing.  The same holds
for the `/approve` command path. -/
theorem approval_resolved_at_most_once
    (store : ApprovalStore) (approval_id user_id decision now user2 decision2 now2 : String)
    (hne : approval_id ≠ "")
    (hdec : decision = "approved" ∨ decision = "rejected") :
    (get_approval_request store approval_id = none →
      handle_approval store approval_id user_id decision now = (.notFound approval_id, store)
      ∧ handle_approve_command store approval_id user_id now = (.notFound approval_id, store))
    ∧ (∀ req, get_approval_request store approval_id = some req → req.status ≠ "pending" →
        handle_approval store approval_id user_id decision now
          = (.alreadyResolved approval_id req.status, store)
        ∧ handle_approve_command store approval_id user_id now
          = (.alreadyResolved approval_id req.status, store))
    ∧ (∀ req, get_approval_request store approval_id = some req → req.status = "pending" →
        get_approval_request (handle_approval store approval_id user_id decision now).2 approval_id
          = some (resolve_record req decision user_id now)
        ∧ handle_approval (handle_approval store approval_id user_id decision now).2
            approval_id user2 decision2 now2
          = (.alreadyResolved approval_id decision,
             (handle_approval store approval_id user_id decision now).2)) := by
  refine ⟨?_, ?_, ?_⟩
  · intro hget
    exact ⟨by simp [handle_approval, hget], by simp [handle_approve_command, hne, hget]⟩
  · intro req hget hst
    exact ⟨by simp [handle_approval, hget, hst],
           by simp [handle_approve_command, hne, hget, hst]⟩
  · intro req hget hst
    have hrun : (handle_approval store approval_id user_id decision now).2
        = update_approval_request store approval_id decision user_id now := by
      rcases hdec with h | h <;> simp [handle_approval, hget, hst, h]
    have hget2 : get_approval_request
        (handle_approval store approval_id user_id decision now).2 approval_id
        = some (resolve_record req decision user_id now) := by
      rw [hrun, get_update_approval, hget]
      rfl
    refine ⟨hget2, ?_⟩
    have hnp : decision ≠ "pending" := by
      rcases hdec with h | h <;> rw [h] <;> decide
    generalize hS : (handle_approval store approval_id user_id decision now).2 = S at hget2 ⊢
    simp [handle_approval, hget2, resolve_record, hnp]

/-- Witness for C4 at a one-row pending table, a missing id and an
already-approved row. -/
theorem approval_resolved_at_most_once_witness :
    get_approval_request
        (handle_approval [("ap-1", { status := "pending", action := "node_failure" })]
          "ap-1" "u1" "approved" "t1").2 "ap-1"
      = some (resolve_record { status := "pending", action := "node_failure" }
               "approved" "u1" "t1")
    ∧ handle_approval
        (handle_approval [("ap-1", { status := "pending", action := "node_failure" })]
          "ap-1" "u1" "approved" "t1").2 "ap-1" "u2" "rejected" "t2"
      = (.alreadyResolved "ap-1" "approved",
         (handle_approval [("ap-1", { status := "pending", action := "node_failure" })]
           "ap-1" "u1" "approved" "t1").2)
    ∧ handle_approval [("ap-1", { status := "pending", action := "node_failure" })]
        "missing" "u1" "approved" "t1"
      = (.notFound "missing", [("ap-1", { status := "pending", action := "node_failure" })])
    ∧ handle_approval [("ap-0", { status := "approved", action := "pod_eviction" })]
        "ap-0" "u1" "approved" "t1"
      = (.alreadyResolved "ap-0" "approved",
         [("ap-0", { status := "approved", action := "pod_eviction" })]) := by
  have h1 := approval_resolved_at_most_once
    [("ap-1", { status := "pending", action := "node_failure" })]
    "ap-1" "u1" "approved" "t1" "u2" "rejected" "t2" (by decide) (Or.inl rfl)
  have h2 := approval_resolved_at_most_once
    [("ap-1", { status := "pending", action := "node_failure" })]
    "missing" "u1" "approved" "t1" "u2" "rejected" "t2" (by decide) (Or.inl rfl)
  have h3 := approval_resolved_at_most_once
    [("ap-0", { status := "approved", action := "pod_eviction" })]
    "ap-0" "u1" "approved" "t1" "u2" "rejected" "t2" (by decide) (Or.inl rfl)
  obtain ⟨hg, hsecond⟩ :=
    h1.2.2 { status := "pending", action := "node_failure" } rfl rfl
  refine ⟨hg, hsecond, (h2.1 rfl).1, ?_⟩
  exact (h3.2.1 { status := "approved", action := "pod_eviction" } rfl (by decide)).1

/-! ## Verifier theorems -/

/-- The loop appends every check's result in order and the final status is
`failed` exactly when some result is not `passed`, else the starting status. -/
theorem verify_loop_total_eq (cs : List String) (acc : List CheckResult) (overall : String) :
    verify_recovery_loop cs acc overall =
      (acc ++ cs.map perform_verification_check,
       if ∃ c ∈ cs, (perform_verification_check c).status ≠ "passed" then "failed"
       else overall) := by
  induction cs generalizing acc overall with
  | nil => simp [verify_recovery_loop]
  | cons c cs ih =>
    simp only [verify_recovery_loop]
    rw [ih]
    by_cases hc : (perform_verification_check c).status = "passed"
    · simp [hc, List.append_assoc]
    · simp [hc, List.append_assoc]

/-- C8: for every configured list of checks, the Verifier executes all checks
without stopping early, every check appears in the output with its individual
status, and the overall verdict is `success` exactly when every check reports
`passed`: any non-`passed` check yields overall `failed`.  The claim's clause
about a check raising an unexpected error never applies: every branch of
`perform_verification_check` returns normally — each check's status is
`passed` or `skipped` — so no configured check list can raise and the
`except` handler around the loop is unreachable. -/
theorem verifier_runs_all_checks_and_aggregates (checks : List String) :
    (verify_recovery checks).1 = checks.map perform_verification_check
    ∧ ((verify_recovery checks).2 = "success"
        ↔ ∀ c ∈ checks, (perform_verification_check c).status = "passed")
    ∧ ((∃ c ∈ checks, (perform_verification_check c).status ≠ "passed") →
        (verify_recovery checks).2 = "failed")
    ∧ ∀ c : String, (perform_verification_check c).status = "passed"
        ∨ (perform_verification_check c).status = "skipped" := by
  have ht := verify_loop_total_eq checks [] "success"
  have hres : (verify_recovery checks).1 = checks.map perform_verification_check := by
    show (verify_recovery_loop checks [] "success").1 = checks.map perform_verification_check
    rw [ht]
    simp
  have hstatus : (verify_recovery checks).2
      = if ∃ c ∈ checks, (perform_verification_check c).status ≠ "passed" then "failed"
        else "success" := by
    show (verify_recovery_loop checks [] "success").2
        = if ∃ c ∈ checks, (perform_verification_check c).status ≠ "passed" then "failed"
          else "success"
    rw [ht]
  refine ⟨hres, ?_, ?_, ?_⟩
  · rw [hstatus]
    by_cases hex : ∃ c ∈ checks, (perform_verification_check c).status ≠ "passed"
    · rw [if_pos hex]
      obtain ⟨c, hc, hne⟩ := hex
      constructor
      · intro hcontra
        exact absurd hcontra (by decide)
      · intro hall
        exact absurd (hall c hc) hne
    · rw [if_neg hex]
      push_neg at hex
      exact iff_of_true rfl hex
  · intro hex
    rw [hstatus]
    exact if_pos hex
  · intro c
    unfold perform_verification_check
    split
    · exact Or.inl rfl
    · split
      · exact Or.inl rfl
      · split
        · exact Or.inl rfl
        · exact Or.inr rfl

/-- Witness for C8: the spec's four-check scenario with one non-`passed`
check — all four checks appear with their statuses and the overall verdict is
`failed`. -/
theorem verifier_runs_all_checks_and_aggregates_witness :
    (verify_recovery ["pod_status", "no_errors", "bogus_check", "metrics_normal"]).1
      = ["pod_status", "no_errors", "bogus_check", "metrics_normal"].map
          perform_verification_check
    ∧ (verify_recovery ["pod_status", "no_errors", "bogus_check", "metrics_normal"]).2
      = "failed" := by
  have h := verifier_runs_all_checks_and_aggregates
    ["pod_status", "no_errors", "bogus_check", "metrics_normal"]
  refine ⟨h.1, h.2.2.1 ⟨"bogus_check", ?_, ?_⟩⟩
  · simp
  · decide


/-- Witness for C10 at a concrete unknown action followed by a known one. -/
theorem unknown_action_skipped_still_halts_plan_witness :
    execute_step (fun _ => true) ⟨1, "make_coffee", true⟩ =
      { step_number := 1, action := "make_coffee", status := "skipped",
        reason := some ("Unknown action: " ++ "make_coffee") }
    ∧ execute_plan (fun _ => true) [⟨1, "make_coffee", true⟩, ⟨2, "rollout_restart", true⟩] =
        ([execute_step (fun _ => true) ⟨1, "make_coffee", true⟩], "partial_failure") :=
  unknown_action_skipped_still_halts_plan
    (fun _ => true) ⟨1, "make_coffee", true⟩ [⟨2, "rollout_restart", true⟩] (by decide) rfl

end ChaosGuardian
